import Mathlib

/-!
# Verification of the drive-ingestion / captioning / search pipeline

Shallow embedding of the core of the `v0-drive` repository:

* `src/lib/workers.ts` — folder worker, image worker, `processImage`,
  `updateFolderProgress`, the in-memory `folderProgress` map;
* `src/lib/drive.ts` — `extractFolderId`, `isValidDriveUrl`,
  `validateAndListImages`, `listImagesRecursively`;
* `src/app/api/search/route.ts` — the search endpoint (`POST`);
* `src/app/api/ingest/route.ts` and the OAuth ingest route — the ingest
  endpoints (`POST`);
* the sync route — the sync endpoint (`POST`);
* `src/app/api/retry-image/route.ts` — the retry endpoint (`POST`).

Database rows are modelled as Lean structures, the database as lists of
rows, and each route handler / worker body as a pure state-passing
function.  Outbound calls (Google Drive listing, Gemini captioning and
embedding, pgvector availability) are parameters of the functions that
perform them, so every definition is executable on concrete inputs.
-/

namespace Drive

/-- Row status used for both folders and images
(`pending | processing | completed | failed` in the Prisma schema). -/
inductive Status where
  | pending
  | processing
  | completed
  | failed
deriving DecidableEq, Repr

/-- An `images` table row.  `caption`, `tags`, `captionVec` and `error` are
nullable columns; the vector is stored through its serialized pgvector
literal (`[v0,v1,...]`), which is how `workers.ts` writes it, so we keep the
serialized string. -/
structure ImageRow where
  id : String
  fileId : String
  folderId : String
  name : String
  mimeType : String
  status : Status
  caption : Option String
  tags : Option String
  captionVec : Option String
  error : Option String
deriving DecidableEq, Repr

/-- A `folders` table row. -/
structure FolderRow where
  id : String
  folderId : String          -- external (drive) folder id
  name : Option String
  status : Status
  totalImages : Nat
  processedImages : Nat
deriving DecidableEq, Repr

/-- The relational store: the `folders` and `images` tables. -/
structure Db where
  folders : List FolderRow
  images : List ImageRow
deriving DecidableEq, Repr

/-- One entry of the in-memory `folderProgress` map of `workers.ts`
(the `startTime` field is wall-clock bookkeeping only and is omitted). -/
structure Progress where
  totalImages : Nat
  processedImages : Nat
deriving DecidableEq, Repr

/-- The in-memory `folderProgress` map, keyed by internal folder id. -/
def ProgressMap := List (String × Progress)

instance : DecidableEq ProgressMap := by
  unfold ProgressMap
  infer_instance

/-- Metadata of a file as returned by the Google Drive `files.list` call
(`id,name,mimeType,...`; fields not consumed by the embedded code are
omitted; `trashed` is part of the listing query). -/
structure DriveFile where
  id : String
  name : String
  mimeType : String
  trashed : Bool
deriving DecidableEq, Repr

/-! ## Small string machinery

The TypeScript code compares strings with SQL `LOWER`, `LIKE '%q%'` /
`LIKE 'q%'` patterns and JavaScript `String.prototype.match`.  We model all
of it over `List Char`. -/

/-- `LOWER` of SQL / `toLowerCase` of JS, on a char list. -/
def lowerL (s : List Char) : List Char := s.map Char.toLower

/-- `List.isPrefixOf` with decidable equality, written out so the whole
pipeline reduces by `decide`. -/
def leadsWith : List Char → List Char → Bool
  | [], _ => true
  | _ :: _, [] => false
  | a :: as, b :: bs => a = b && leadsWith as bs

/-- JS `String.prototype.includes`: literal substring containment (used
for the URL-path checks; SQL `LIKE` is modelled separately below). -/
def hasSub (needle : List Char) : List Char → Bool
  | [] => needle.isEmpty
  | s@(_ :: rest) => leadsWith needle s || hasSub needle rest

/-- JS `String.prototype.trim` (ASCII whitespace suffices here). -/
def trimL (s : List Char) : List Char :=
  ((s.dropWhile Char.isWhitespace).reverse.dropWhile Char.isWhitespace).reverse

/-- PostgreSQL `LIKE` evaluation: `%` matches any sequence, `_` matches
any single character, and backslash (the default escape character) makes
the following pattern character literal.  The search route interpolates
the raw user query into the pattern unescaped, so these metacharacters
keep their wildcard meaning.  Structural recursion on a fuel argument so
the matcher evaluates under `decide`; every recursive call shortens
`pattern.length + s.length`, so `likeMatch`'s initial fuel is never
exhausted (on exhaustion, which is unreachable, the matcher answers
`false`).  A pattern ending in a lone escape character raises an error in
PostgreSQL, but the route's patterns always end in `%`, so that case
cannot arise and is answered `false` here. -/
def likeMatchGo : Nat → List Char → List Char → Bool
  | 0, _, _ => false
  | _ + 1, [], s => s.isEmpty
  | fuel + 1, '\\' :: c :: p, s =>
    match s with
    | [] => false
    | c' :: s' => c = c' && likeMatchGo fuel p s'
  | _ + 1, ['\\'], _ => false
  | fuel + 1, '%' :: p, s =>
    likeMatchGo fuel p s ||
      (match s with
       | [] => false
       | _ :: s' => likeMatchGo fuel ('%' :: p) s')
  | fuel + 1, '_' :: p, s =>
    match s with
    | [] => false
    | _ :: s' => likeMatchGo fuel p s'
  | fuel + 1, c :: p, s =>
    match s with
    | [] => false
    | c' :: s' => c = c' && likeMatchGo fuel p s'

/-- `s LIKE pattern` with PostgreSQL semantics. -/
def likeMatch (pattern s : List Char) : Bool :=
  likeMatchGo (pattern.length + s.length + 1) pattern s

/-! ## URL handling (`src/lib/drive.ts` and the ingest routes) -/

/-- A character admitted by the id-capturing group of the regex
`\/folders\/([a-zA-Z0-9-_]+)` used throughout the repository. -/
def idChar (c : Char) : Bool :=
  (('a' ≤ c && c ≤ 'z') || ('A' ≤ c && c ≤ 'Z') ||
   ('0' ≤ c && c ≤ '9') || c = '-' || c = '_')

/-- The literal `/folders/` the regex looks for. -/
def foldersLit : List Char := '/' :: 'f' :: 'o' :: 'l' :: 'd' :: 'e' :: 'r' :: 's' :: '/' :: []

/-- JS `s.match(/\/folders\/([a-zA-Z0-9-_]+)/)`: the regex engine scans for
the first position where `/folders/` is followed by at least one id
character, and the group captures the maximal id-character run there. -/
def foldersRegexMatch : List Char → Option (List Char)
  | [] => none
  | s@(_ :: rest) =>
    if leadsWith foldersLit s then
      let tail := s.drop foldersLit.length
      let run := tail.takeWhile idChar
      if run.isEmpty then foldersRegexMatch rest else some run
    else foldersRegexMatch rest

/-- `src/app/api/ingest/route.ts`, folder-id extraction:
`folderUrl.match(/\/folders\/([a-zA-Z0-9-_]+)/)`; `null` match is answered
with the `Invalid Google Drive folder URL` 400 response.  Note the route
never inspects the URL's host. -/
def ingestExtractFolderId (folderUrl : String) : Option String :=
  (foldersRegexMatch folderUrl.toList).map fun run => String.mk run

/-- A parsed `new URL(...)` value restricted to the fields `drive.ts`
reads: `hostname`, `pathname` and the `searchParams`.  Models the WHATWG
parser for well-formed `scheme://host/path?query` URLs. -/
structure ParsedUrl where
  hostname : String
  pathname : String
  queryParams : List (String × String)
deriving DecidableEq, Repr

/-- Splits a char list at the first occurrence of `sep`, if any. -/
def splitAtChar (sep : Char) : List Char → List Char × Option (List Char)
  | [] => ([], none)
  | c :: rest =>
    if c = sep then ([], some rest)
    else
      let (pre, post) := splitAtChar sep rest
      (c :: pre, post)

/-- One `k=v` component of a query string (`k` alone parses as `(k, "")`). -/
def parseQueryPair (s : List Char) : String × String :=
  let (k, v) := splitAtChar '=' s
  (String.mk k, String.mk (v.getD []))

/-- Splits a char list on every occurrence of `sep`
(structural recursion so the parser evaluates under `decide`). -/
def splitAllOn (sep : Char) : List Char → List (List Char)
  | [] => [[]]
  | c :: rest =>
    if c = sep then [] :: splitAllOn sep rest
    else
      match splitAllOn sep rest with
      | [] => [[c]]
      | h :: t => (c :: h) :: t

/-- `new URL(s)` restricted to `scheme://host/path?query` shapes; anything
without a `://` or with an empty host throws (`none`). -/
def parseUrl (s : String) : Option ParsedUrl :=
  let cs := s.toList
  let (scheme, afterScheme) := splitAtChar ':' cs
  match afterScheme with
  | none => none
  | some afterColon =>
    match afterColon with
    | '/' :: '/' :: rest =>
      if scheme.isEmpty then none
      else
        -- host runs to the first '/' or '?'
        let host := rest.takeWhile (fun c => c ≠ '/' && c ≠ '?')
        let afterHost := rest.drop host.length
        if host.isEmpty then none
        else
          let (path, query) := splitAtChar '?' afterHost
          let params := match query with
            | none => []
            | some q => (splitAllOn '&' q).map parseQueryPair
          some { hostname := String.mk (lowerL host)
                 pathname := String.mk (if path.isEmpty then ['/'] else path)
                 queryParams := params }
    | _ => none

/-- `url.searchParams.has(k)` / `.get(k)`. -/
def getParam (u : ParsedUrl) (k : String) : Option String :=
  (u.queryParams.find? (fun p => p.fst = k)).map Prod.snd

/-- `src/lib/drive.ts` `extractFolderId`: parse the URL; if the pathname
contains `/folders/`, capture with the same regex; else answer the `id`
query parameter; else `null`. -/
def extractFolderId (folderUrl : String) : Option String :=
  match parseUrl folderUrl with
  | none => none
  | some url =>
    if hasSub foldersLit url.pathname.toList then
      (foldersRegexMatch url.pathname.toList).map fun run => String.mk run
    else match getParam url "id" with
      | some v => some v
      | none => none

/-- `src/lib/drive.ts` `isValidDriveUrl`: hostname must be
`drive.google.com` and the pathname must contain `/folders/` or the query
must carry an `id` parameter. -/
def isValidDriveUrl (url : String) : Bool :=
  match parseUrl url with
  | none => false
  | some u =>
    u.hostname = "drive.google.com" &&
      (hasSub foldersLit u.pathname.toList || (getParam u "id").isSome)

/-! ## Drive listing (`src/lib/drive.ts`) -/

/-- The Gemini-supported image MIME list, repeated verbatim in
`drive.ts` (`listImagesRecursively`), `workers.ts` (`processImage`) and the
OAuth ingest/sync routes. -/
def supportedMimeTypes : List String :=
  ["image/jpeg", "image/png", "image/gif", "image/webp", "image/bmp",
   "image/svg+xml"]

/-- `validateAndListImages` issues the Drive query
`'folder' in parents and mimeType contains 'image/' and trashed=false`.
On `mimeType`, Drive's `contains` operator performs prefix matching, so the
listing returns every non-trashed file whose MIME type starts with
`image/` — `image/heic` included. -/
def validateAndListImages (remote : List DriveFile) : List DriveFile :=
  remote.filter fun f =>
    !f.trashed && leadsWith "image/".toList f.mimeType.toList

/-- `listImagesRecursively` queries for the six supported image MIME types
(or subfolders) and then double-checks
`supportedImageTypes.includes(file.mimeType)` before collecting a file.
We model the flattened traversal result: the subfolder walk and pagination
only concatenate more files of the same shape. -/
def listImagesRecursively (remote : List DriveFile) : List DriveFile :=
  remote.filter fun f =>
    !f.trashed && supportedMimeTypes.contains f.mimeType

/-! ## Store writes (`src/lib/workers.ts`, `src/app/api/retry-image/route.ts`)

Each Prisma statement of the source becomes one Lean function: a single
function application models a single atomic SQL statement. -/

/-- `prisma.image.update({where: {id}, data})` with only `status`. -/
def setImageStatus (db : Db) (imageId : String) (st : Status) : Db :=
  { db with images := db.images.map fun r =>
      if r.id = imageId then { r with status := st } else r }

/-- `prisma.image.update` setting `status: 'failed'` and `error`
(`processImage`, both the unsupported-MIME branch and the catch branch). -/
def setImageFailed (db : Db) (imageId : String) (msg : String) : Db :=
  { db with images := db.images.map fun r =>
      if r.id = imageId then { r with status := .failed, error := some msg }
      else r }

/-- The single raw `UPDATE images SET status='completed', caption=...,
tags=..., "captionVec"=...::vector, "updatedAt"=NOW() WHERE id=...` of
`processImage`: status and all three payload columns are written by one
atomic statement. -/
def setImageCompleted (db : Db) (imageId : String)
    (caption : String) (tagsJoined : String) (vec : String) : Db :=
  { db with images := db.images.map fun r =>
      if r.id = imageId then
        { r with status := .completed, caption := some caption,
                 tags := some tagsJoined, captionVec := some vec }
      else r }

/-- The single raw `UPDATE images SET status='pending', caption=NULL,
tags=NULL, "captionVec"=NULL, error=NULL WHERE id=...` of the retry route:
the reset nulls all four columns atomically. -/
def resetImageToPending (db : Db) (imageId : String) : Db :=
  { db with images := db.images.map fun r =>
      if r.id = imageId then
        { r with status := .pending, caption := none, tags := none,
                 captionVec := none, error := none }
      else r }

/-- The folder-scoped variant of the same raw statement
(`WHERE "folderId" = ... AND status = 'failed'`). -/
def resetFailedImagesToPending (db : Db) (folderId : String) : Db :=
  { db with images := db.images.map fun r =>
      if r.folderId = folderId && r.status = .failed then
        { r with status := .pending, caption := none, tags := none,
                 captionVec := none, error := none }
      else r }

/-- `prisma.folder.update({where: {id}, data})`, applied pointwise. -/
def updateFolder (db : Db) (folderId : String)
    (f : FolderRow → FolderRow) : Db :=
  { db with folders := db.folders.map fun r =>
      if r.id = folderId then f r else r }

/-- `prisma.image.count({where: {folderId}})`. -/
def countImages (db : Db) (folderId : String) : Nat :=
  (db.images.filter fun r => r.folderId = folderId).length

/-- `prisma.image.count({where: {folderId, status: 'completed'}})`. -/
def countCompleted (db : Db) (folderId : String) : Nat :=
  (db.images.filter fun r =>
    r.folderId = folderId && r.status = .completed).length

/-- `prisma.image.findUnique({where: {id}})`. -/
def findImage (db : Db) (imageId : String) : Option ImageRow :=
  db.images.find? fun r => r.id = imageId

/-- Lookup in the in-memory `folderProgress` map. -/
def progGet (m : ProgressMap) (folderId : String) : Option Progress :=
  (List.find? (fun p => p.fst = folderId) m).map Prod.snd

/-- `folderProgress.set(folderId, v)`. -/
def progSet (m : ProgressMap) (folderId : String) (v : Progress) :
    ProgressMap :=
  match m with
  | [] => [(folderId, v)]
  | p :: rest =>
    if p.fst = folderId then (folderId, v) :: rest
    else p :: progSet rest folderId v

/-- `folderProgress.delete(folderId)`. -/
def progDelete (m : ProgressMap) (folderId : String) : ProgressMap :=
  List.filter (fun p => !(p.fst = folderId)) m

/-! ## Workers (`src/lib/workers.ts`) -/

/-- One member of an image batch job, as built by the folder worker and the
retry route (the `accessToken` is credential plumbing with no effect on the
state transitions modelled here). -/
structure BatchMember where
  imageId : String
  fileId : String
  etag : String
  folderId : String
  mimeType : Option String
  name : Option String
deriving DecidableEq, Repr

/-- Joint outcome of the outbound `captionImage` and
`generateCaptionEmbedding` calls: either a caption, a tag list and the
serialized embedding literal, or a thrown error. -/
inductive CaptionOutcome where
  | ok (caption : String) (tags : List String) (vectorString : String)
  | err (msg : String)
deriving DecidableEq, Repr

/-- The result record `processImage` returns instead of throwing. -/
structure PResult where
  success : Bool
  imageId : String
deriving DecidableEq, Repr

/-- `", "`-free comma join used for the `tags` column (`tags.join(",")`). -/
def joinComma : List String → String
  | [] => ""
  | [t] => t
  | t :: rest => t ++ "," ++ joinComma rest

/-- `updateFolderProgress` (`workers.ts` 389–431): recount total and
completed rows, set `processedImages` and `status` —
`completed` exactly when `processedImages === totalImages`, with no
`totalImages > 0` guard — and drop the in-memory entry once completed. -/
def updateFolderProgress (db : Db) (prog : ProgressMap)
    (folderId : String) : Db × ProgressMap :=
  let total := countImages db folderId
  let processed := countCompleted db folderId
  let st : Status := if processed = total then .completed else .processing
  let db' := updateFolder db folderId fun f =>
    { f with processedImages := processed, status := st }
  let prog' :=
    if (progGet prog folderId).isSome && st = .completed then
      progDelete prog folderId
    else prog
  (db', prog')

/-- The catch branch of `processImage` (`workers.ts` 296–338): bump the
in-memory progress entry (failures count as progress), and when it reaches
the in-memory total, delete the entry and mark the folder `completed` with
`processedImages := totalImages` from the map; then mark the image row
failed with the error message. -/
def processImageFailurePath (db : Db) (prog : ProgressMap)
    (folderId imageId msg : String) : Db × ProgressMap × PResult :=
  -- in the source the `image.update` to `failed` follows the progress
  -- block on a single code path; it commutes into each branch here
  match progGet prog folderId with
  | none => (setImageFailed db imageId msg, prog, ⟨false, imageId⟩)
  | some cur =>
    let cur' : Progress :=
      { cur with processedImages := cur.processedImages + 1 }
    let prog' := progSet prog folderId cur'
    if cur'.totalImages ≤ cur'.processedImages then
      (setImageFailed
        (updateFolder db folderId fun f =>
          { f with status := .completed,
                   processedImages := cur'.totalImages })
        imageId msg,
       progDelete prog' folderId, ⟨false, imageId⟩)
    else (setImageFailed db imageId msg, prog', ⟨false, imageId⟩)

/-- MIME-type and name resolution at the head of `processImage`: fall back
to the database row when either is missing from the job payload. -/
def resolveMeta (db1 : Db) (m : BatchMember) :
    Option String × Option String :=
  match m.mimeType, m.name with
  | some mt, some nm => (some mt, some nm)
  | _, _ =>
    match findImage db1 m.imageId with
    | some r => (some r.mimeType, some r.name)
    | none => (m.mimeType, m.name)

/-- The supported branch of `processImage`, after MIME validation:
dispatch on the caption/embedding outcome. -/
def processImageSupported (db1 : Db) (prog : ProgressMap)
    (m : BatchMember) (outcome : CaptionOutcome) :
    Db × ProgressMap × PResult :=
  match outcome with
  | .ok caption tags vectorString =>
    let db2 :=
      setImageCompleted db1 m.imageId caption (joinComma tags) vectorString
    let (db3, prog') := updateFolderProgress db2 prog m.folderId
    (db3, prog', ⟨true, m.imageId⟩)
  | .err msg => processImageFailurePath db1 prog m.folderId m.imageId msg

/-- `processImage` (`workers.ts` 192–339).  Outbound captioning/embedding
is abstracted by `outcome`; everything else follows the source: mark the
row `processing`, resolve MIME type and name (falling back to the row),
fail fast on unsupported MIME types without consuming the outcome,
otherwise write the completed row atomically and recompute folder
progress; any thrown error takes the failure path above. -/
def processImage (db : Db) (prog : ProgressMap) (m : BatchMember)
    (outcome : CaptionOutcome) : Db × ProgressMap × PResult :=
  let db1 := setImageStatus db m.imageId .processing
  match resolveMeta db1 m with
  | (some mt, some _) =>
    if supportedMimeTypes.contains mt then
      processImageSupported db1 prog m outcome
    else
      -- unsupported MIME: mark failed with a precise message and return,
      -- without touching the outcome (no API call) or the progress map
      (setImageFailed db1 m.imageId
        ("Unsupported MIME type: " ++ mt ++
          ". Gemini only supports: image/jpeg, image/png, image/gif, image/webp, image/bmp, image/svg+xml"),
       prog, ⟨false, m.imageId⟩)
  | _ =>
    -- "Image not found or details missing" is thrown and caught
    processImageFailurePath db1 prog m.folderId m.imageId
      "Image not found or details missing"

/-- `[...].slice`-based batching: split a list into chunks of five
(`batchSize = 5`), with a fuel argument so the recursion is structural and
the function evaluates under `decide`. -/
def chunk5Go : Nat → List α → List (List α)
  | _, [] => []
  | 0, l => [l]
  | fuel + 1, a :: rest => (a :: rest.take 4) :: chunk5Go fuel (rest.drop 4)

/-- Split a list into chunks of five. -/
def chunkList5 (l : List α) : List (List α) := chunk5Go l.length l

/-- The folder worker body (`workers.ts` 86–189): mark the folder
`processing`, read its pending images, initialize the in-memory progress
entry, partition into batches of five (returned as the queued jobs), then
recount and — when `processedImages === totalImages`, again with no
`totalImages > 0` guard — mark the folder `completed`. -/
def folderWorkerRun (db : Db) (prog : ProgressMap) (folderId : String) :
    Db × ProgressMap × List (List BatchMember) :=
  let db1 := updateFolder db folderId fun f => { f with status := .processing }
  let pendings := db1.images.filter fun r =>
    r.folderId = folderId && r.status = .pending
  let prog1 := progSet prog folderId
    { totalImages := pendings.length, processedImages := 0 }
  let members := pendings.map fun r =>
    { imageId := r.id, fileId := r.fileId, etag := "unknown",
      folderId := folderId, mimeType := some r.mimeType,
      name := some r.name : BatchMember }
  let batches := chunkList5 members
  let total := countImages db1 folderId
  let processed := countCompleted db1 folderId
  let db2 :=
    if processed = total then
      updateFolder db1 folderId fun f => { f with status := .completed }
    else db1
  (db2, prog1, batches)

/-- The `batch-caption` branch of the image worker (`workers.ts` 342–386):
run `processImage` on every member (`Promise.all` over rows with distinct
ids; the sequential fold is the chosen linearization) and collect the
result records. -/
def runBatchMembers (db : Db) (prog : ProgressMap) :
    List (BatchMember × CaptionOutcome) → Db × ProgressMap × List PResult
  | [] => (db, prog, [])
  | (m, o) :: rest =>
    let (db1, prog1, r) := processImage db prog m o
    let (db2, prog2, rs) := runBatchMembers db1 prog1 rest
    (db2, prog2, r :: rs)

/-- The batch job's return value `{success: true, processed, failed}`. -/
structure BatchReturn where
  success : Bool
  processed : Nat
  failed : Nat
deriving DecidableEq, Repr

/-- The whole batch job: execute every member, then report
`processed = #successes` and `failed = #failures`. -/
def imageWorkerBatch (db : Db) (prog : ProgressMap)
    (jobs : List (BatchMember × CaptionOutcome)) :
    Db × ProgressMap × BatchReturn :=
  let (db', prog', results) := runBatchMembers db prog jobs
  (db', prog',
   { success := true,
     processed := (results.filter fun r => r.success).length,
     failed := (results.filter fun r => !r.success).length })

/-! ## Search endpoint (`src/app/api/search/route.ts`) -/

/-- One formatted search result (only the fields the claims speak about;
`similarity` is kept in exact thousandths: the route rounds
`Math.round(similarity * 1000) / 1000` and the lexical pseudo-scores
1.0 / 0.8 / 0.6 are exactly 1000 / 800 / 600 thousandths). -/
structure SearchHit where
  id : String
  name : String
  caption : Option String
  similarity : Nat
deriving DecidableEq, Repr

/-- The ranking bucket of the lexical `ORDER BY CASE` clause:
1 when `LOWER(name) = LOWER(query)`, 2 when `LOWER(name) LIKE
LOWER('query%')`, 3 otherwise.  The raw query is interpolated into the
`LIKE` pattern unescaped, so its `%`/`_` keep wildcard meaning. -/
def filenameRank (qLower nameLower : List Char) : Nat :=
  if nameLower = qLower then 1
  else if likeMatch (qLower ++ ['%']) nameLower then 2
  else 3

/-- The `CASE` similarity pseudo-score of the lexical query, in
thousandths: 1.0 on exact equality, 0.8 on `LIKE 'query%'`, 0.6 on
`LIKE '%query%'` (the `ELSE 0.5` branch is unreachable under the `WHERE`
condition, which repeats the `LIKE '%query%'` test). -/
def filenameScore (qLower nameLower : List Char) : Nat :=
  if nameLower = qLower then 1000
  else if likeMatch (qLower ++ ['%']) nameLower then 800
  else if likeMatch ('%' :: qLower ++ ['%']) nameLower then 600
  else 500

/-- The `ORDER BY (rank CASE), name` relation of the lexical SQL query;
the tie-break compares names lexicographically (C-collation order),
modelled on the underlying char lists. -/
def filenameOrder (qLower : List Char) (a b : ImageRow) : Prop :=
  filenameRank qLower (lowerL a.name.toList) <
      filenameRank qLower (lowerL b.name.toList) ∨
    (filenameRank qLower (lowerL a.name.toList) =
        filenameRank qLower (lowerL b.name.toList) ∧
      a.name.toList ≤ b.name.toList)

instance (qLower : List Char) : DecidableRel (filenameOrder qLower) :=
  fun _ _ => by unfold filenameOrder; infer_instance

/-- The row set of the lexical SQL query, before the `LIMIT`: the `WHERE`
clause keeps completed rows of the folder satisfying
`LOWER(name) LIKE LOWER('%query%')` — the query interpolated unescaped,
wildcards included — and the `ORDER BY` sorts by rank bucket then name. -/
def searchByFilenameRows (db : Db) (folderId : String)
    (trimmedQuery : String) (maxResults : Nat) : List ImageRow :=
  let q := lowerL trimmedQuery.toList
  let matchedRows := db.images.filter fun r =>
    r.folderId = folderId && r.status = .completed &&
      likeMatch ('%' :: q ++ ['%']) (lowerL r.name.toList)
  (List.insertionSort (filenameOrder q) matchedRows).take maxResults

/-- The formatted lexical results (caption cleanup via `cleanCaption` is a
presentation-layer rewrite of the caption text and is left as the stored
text here; no claim depends on it). -/
def searchByFilename (db : Db) (folderId : String)
    (trimmedQuery : String) (maxResults : Nat) : List SearchHit :=
  (searchByFilenameRows db folderId trimmedQuery maxResults).map fun r =>
    { id := r.id, name := r.name, caption := r.caption,
      similarity :=
        filenameScore (lowerL trimmedQuery.toList) (lowerL r.name.toList) }

/-- `Math.min(Math.max(1, Number.parseInt(topK) || 12), 50)`: an absent,
zero or non-numeric `topK` falls back to the default 12 through JS
falsiness; `none` stands for an absent or non-numeric value. -/
def computeMaxResults (topK : Option Int) : Nat :=
  let parsed : Int :=
    match topK with
    | none => 12
    | some k => if k = 0 then 12 else k
  (min (max 1 parsed) 50).toNat

/-- `isFilenameSearch`: the trimmed query contains a dot or is shorter
than three characters. -/
def isFilenameSearch (trimmedQuery : String) : Bool :=
  trimmedQuery.toList.contains '.' || trimmedQuery.length < 3

/-- Environment of a search request: whether the pgvector extension can be
provisioned (`ensurePgvectorExtension` throws otherwise), and the distance
pgvector computes between two serialized vectors (`<=>`, in thousandths). -/
structure SearchEnv where
  pgvectorAvailable : Bool
  queryVec : String
  dist : String → String → Int

/-- The pgvector similarity query: completed rows of the folder with a
non-null vector, ordered by ascending cosine distance, `similarity = 1 −
distance`. -/
def searchBySimilarity (env : SearchEnv) (db : Db) (folderId : String)
    (maxResults : Nat) : List SearchHit :=
  let candidates := db.images.filter fun r =>
    r.folderId = folderId && r.status = .completed && r.captionVec.isSome
  let sorted := List.insertionSort
    (fun a b =>
      env.dist (a.captionVec.getD "") env.queryVec ≤
        env.dist (b.captionVec.getD "") env.queryVec)
    candidates
  (sorted.take maxResults).map fun r =>
    { id := r.id, name := r.name, caption := r.caption,
      similarity :=
        (1000 - env.dist (r.captionVec.getD "") env.queryVec).toNat }

/-- Responses of the search endpoint. -/
inductive SearchResponse where
  | ok (results : List SearchHit) (searchType : String)
  | badRequest (msg : String)
  | serverError
deriving DecidableEq

/-- The search `POST` handler (`src/app/api/search/route.ts`).  The
semantic branch first awaits `ensurePgvectorExtension()`; when the vector
backend is unavailable that call throws, the outer catch fires, and the
route answers the 500 `Internal server error` — there is no fallback to
the lexical branch. -/
def searchPOST (env : SearchEnv) (db : Db) (folderId query : String)
    (topK : Option Int) : SearchResponse :=
  if (trimL query.toList).isEmpty then
    .badRequest "Query must be a non-empty string"
  else
    let trimmedQuery := String.mk (trimL query.toList)
    let maxResults := computeMaxResults topK
    if isFilenameSearch trimmedQuery then
      .ok (searchByFilename db folderId trimmedQuery maxResults) "filename"
    else if !env.pgvectorAvailable then
      .serverError
    else
      .ok (searchBySimilarity env db folderId maxResults) "semantic"

/-! ## Ingest endpoints -/

/-- Fresh image rows bulk-inserted by ingest or sync (`createMany` with
`status: "pending"` and no caption/tags/vector/error columns).  Prisma
generates an opaque internal id; we derive it deterministically from the
drive file id. -/
def newImageRow (dbFolderId : String) (f : DriveFile) : ImageRow :=
  { id := "row-" ++ f.id, fileId := f.id, folderId := dbFolderId,
    name := f.name, mimeType := f.mimeType, status := .pending,
    caption := none, tags := none, captionVec := none, error := none }

/-- `prisma.folder.findUnique({where: {folderId}})` (by drive folder id). -/
def findFolderByDriveId (db : Db) (driveFolderId : String) :
    Option FolderRow :=
  db.folders.find? fun f => f.folderId = driveFolderId

/-- Responses of the ingest endpoints (only the discriminating shape). -/
inductive IngestResponse where
  | okExisting (folderRowId : String) (status : Status)
  | okCreated (folderRowId : String) (totalImages : Nat)
  | invalidUrl
  | accessError (msg : String)
  | capExceeded
  | emptyFolder
deriving DecidableEq, Repr

/-- Result of a Drive listing call: a folder name and the files, or a
thrown/flagged access failure. -/
inductive DriveResult where
  | ok (folderName : Option String) (files : List DriveFile)
  | err (msg : String)
deriving DecidableEq, Repr

/-- The current ingest route (`src/app/api/ingest/route.ts`): regex-only
URL parsing, then — for a new folder — `validateAndListImages` (whose Drive
query admits every `image/*` MIME type), the cap check on the full listed
count, the zero check, folder creation and bulk image insertion.  `remote`
stands for the drive-side folder contents; the user/auth bookkeeping is
not modelled (it only links a `userId`). -/
def ingestRoutePOST (db : Db) (remote : DriveResult) (folderUrl : String)
    (maxImagesLimit : Option Nat) : IngestResponse × Db :=
  match ingestExtractFolderId folderUrl with
  | none => (.invalidUrl, db)
  | some driveFolderId =>
    match findFolderByDriveId db driveFolderId with
    | some existing => (.okExisting existing.id existing.status, db)
    | none =>
      match remote with
      | .err msg => (.accessError msg, db)
      | .ok folderName files =>
        let listed := validateAndListImages files
        match maxImagesLimit with
        | some limit =>
          if limit < listed.length then (.capExceeded, db)
          else ingestRouteCreate db driveFolderId folderName folderUrl listed
        | none => ingestRouteCreate db driveFolderId folderName folderUrl listed
where
  /-- Folder + image row creation shared by the cap branches. -/
  ingestRouteCreate (db : Db) (driveFolderId : String)
      (folderName : Option String) (_folderUrl : String)
      (listed : List DriveFile) : IngestResponse × Db :=
    if listed.isEmpty then (.emptyFolder, db)
    else
      let folderRow : FolderRow :=
        { id := "folder-" ++ driveFolderId, folderId := driveFolderId,
          name := folderName, status := .pending,
          totalImages := listed.length, processedImages := 0 }
      let rows := listed.map (newImageRow folderRow.id)
      (.okCreated folderRow.id listed.length,
       { folders := db.folders ++ [folderRow],
         images := db.images ++ rows })

/-- The OAuth ingest route (`src/unnamed/part_006`, third revision),
fresh-folder branch: `listImagesRecursively`, then a second client-side
filter to the six supported MIME types, the cap check on
`supportedImages.length` **before** any row is created, the zero check on
the raw count, folder creation with `totalImages = supportedImages.length`
and bulk insertion of the supported rows only. -/
def ingestOauthPOST (db : Db) (remote : DriveResult) (folderUrl : String)
    (maxImagesLimit : Option Nat) : IngestResponse × Db :=
  match ingestExtractFolderId folderUrl with
  | none => (.invalidUrl, db)
  | some driveFolderId =>
    match findFolderByDriveId db driveFolderId with
    | some existing => (.okExisting existing.id existing.status, db)
    | none =>
      match remote with
      | .err msg => (.accessError msg, db)
      | .ok folderName files =>
        let listed := listImagesRecursively files
        let supportedImages := listed.filter fun f =>
          supportedMimeTypes.contains f.mimeType
        let capHit :=
          match maxImagesLimit with
          | some limit => decide (limit < supportedImages.length)
          | none => false
        if capHit then (.capExceeded, db)
        else if listed.isEmpty then (.emptyFolder, db)
        else
          let folderRow : FolderRow :=
            { id := "folder-" ++ driveFolderId, folderId := driveFolderId,
              name := folderName, status := .pending,
              totalImages := supportedImages.length, processedImages := 0 }
          let rows := supportedImages.map (newImageRow folderRow.id)
          (.okCreated folderRow.id supportedImages.length,
           { folders := db.folders ++ [folderRow],
             images := db.images ++ rows })

/-! ## Sync endpoint (`src/unnamed/part_007`) -/

/-- Responses of the sync endpoint. -/
inductive SyncResponse where
  | ok (newImagesAdded deletedImagesRemoved : Nat) (status : Status)
  | notFound
  | accessError (msg : String)
  | capExceeded
deriving DecidableEq, Repr

/-- The sync `POST` handler: diff the drive listing against the local
rows; the per-folder cap is checked **only when there are new images**;
insert the new rows; delete every local row absent upstream — the
`deleteMany` carries no status guard, so rows currently `processing` are
deleted too; then recompute `processedImages` from the completed count,
recompute the status and update the folder row. -/
def syncPOST (db : Db) (folderRowId : String) (remote : DriveResult)
    (maxImagesLimit : Option Nat) : SyncResponse × Db :=
  match db.folders.find? (fun f => f.id = folderRowId) with
  | none => (.notFound, db)
  | some folder =>
    match remote with
    | .err msg => (.accessError msg, db)
    | .ok folderName files =>
      let driveImages := files    -- already filtered by listImagesRecursively
      let existingImages := db.images.filter fun r =>
        r.folderId = folderRowId
      let existingFileIds := existingImages.map (·.fileId)
      let driveFileIds := driveImages.map (·.id)
      let newImages := driveImages.filter fun f =>
        !existingFileIds.contains f.id
      let deletedFileIds := existingFileIds.filter fun fid =>
        !driveFileIds.contains fid
      let capHit :=
        if newImages.length ≠ 0 then
          match maxImagesLimit with
          | some limit =>
            decide (limit <
              existingImages.length - deletedFileIds.length +
                newImages.length)
          | none => false
        else false
      if capHit then (.capExceeded, db)
      else
        let inserted := newImages.map (newImageRow folderRowId)
        let db1 : Db := { db with images := db.images ++ inserted }
        let db2 : Db :=
          { db1 with images := db1.images.filter fun r =>
              !(r.folderId = folderRowId &&
                deletedFileIds.contains r.fileId) }
        let newImagesAdded := inserted.length
        let deletedImagesRemoved := deletedFileIds.length
        let updatedTotalImages :=
          existingImages.length - deletedImagesRemoved + newImagesAdded
        let updatedProcessedImages := countCompleted db2 folderRowId
        let newStatus : Status :=
          if newImagesAdded ≠ 0 then .processing
          else if updatedProcessedImages = updatedTotalImages &&
              updatedTotalImages ≠ 0 then .completed
          else folder.status
        let db3 := updateFolder db2 folderRowId fun f =>
          { f with name := folderName, totalImages := updatedTotalImages,
                   processedImages := updatedProcessedImages,
                   status := newStatus }
        (.ok newImagesAdded deletedImagesRemoved newStatus, db3)

/-! ## Retry endpoint (`src/app/api/retry-image/route.ts`) -/

/-- Responses of the retry endpoint. -/
inductive RetryResponse where
  | okQueued (count : Nat)
  | notFound
deriving DecidableEq, Repr

/-- Single-image retry: reset the row to pending — nulling caption, tags,
vector and error in the one raw statement — and enqueue it again. -/
def retryImagePOST (db : Db) (imageId : String) : RetryResponse × Db :=
  match findImage db imageId with
  | none => (.notFound, db)
  | some _ => (.okQueued 1, resetImageToPending db imageId)

/-! ## Invariants stated by the specification -/

/-- Spec §8 invariant 2 on folders:
`status = completed ⇔ totalImages > 0 ∧ processedImages = totalImages`. -/
def folderStatusInvariant (db : Db) : Prop :=
  ∀ f ∈ db.folders,
    f.status = Status.completed ↔
      (0 < f.totalImages ∧ f.processedImages = f.totalImages)

/-- Spec §8 invariant 3 on images:
`status = completed ⇔ caption ≠ null ∧ tags ≠ null ∧ captionVec ≠ null`. -/
def imageInvariant (r : ImageRow) : Prop :=
  r.status = Status.completed ↔
    (r.caption ≠ none ∧ r.tags ≠ none ∧ r.captionVec ≠ none)

/-- The folder-URL grammar exactly as the spec words it (for comparison
with the code's parsing, never used by the embedded handlers): accept only
`https://drive.google.com/drive/folders/{ID}`,
`https://drive.google.com/drive/u/{N}/folders/{ID}` and
`https://drive.google.com/open?id={ID}`; reject any other host or path. -/
def specParseFolderUrl (url : String) : Option String :=
  match parseUrl url with
  | none => none
  | some u =>
    if u.hostname ≠ "drive.google.com" then none
    else
      let p := u.pathname.toList
      if leadsWith "/drive/folders/".toList p then
        let run := p.drop "/drive/folders/".length
        if !run.isEmpty && run.all idChar then some (String.mk run) else none
      else if leadsWith "/drive/u/".toList p then
        let afterU := p.drop "/drive/u/".length
        let num := afterU.takeWhile Char.isDigit
        let restPath := afterU.drop num.length
        if !num.isEmpty && leadsWith "/folders/".toList restPath then
          let run := restPath.drop "/folders/".length
          if !run.isEmpty && run.all idChar then some (String.mk run)
          else none
        else none
      else if u.pathname = "/open" then getParam u "id"
      else none

/-! ## Concrete fixtures

Small databases used by the concrete witnesses and counterexamples. -/

/-- A completed image row. -/
def exCompleted : ImageRow :=
  { id := "i1", fileId := "d1", folderId := "f1", name := "a.jpg",
    mimeType := "image/jpeg", status := .completed, caption := some "c",
    tags := some "t", captionVec := some "v", error := none }

/-- A pending image row. -/
def exPending : ImageRow :=
  { id := "i2", fileId := "d2", folderId := "f1", name := "b.jpg",
    mimeType := "image/jpeg", status := .pending, caption := none,
    tags := none, captionVec := none, error := none }

/-- The row the completed write is expected to produce for `i2`. -/
def exRecaptioned : ImageRow :=
  { exCompleted with
      id := "i2", fileId := "d2", name := "b.jpg",
      caption := some "nc", tags := some "nt", captionVec := some "nv" }

/-- A one-folder fixture (one completed and one pending image). -/
def exDb : Db :=
  { folders := [{ id := "f1", folderId := "g1", name := none,
                  status := .processing, totalImages := 2,
                  processedImages := 1 }],
    images := [exCompleted, exPending] }

/-- Three pending rows in one folder (fileIds `d1`,`d2`,`d3`). -/
def exDb3 : Db :=
  { folders := [{ id := "f1", folderId := "g1", name := none,
                  status := .pending, totalImages := 3,
                  processedImages := 0 }],
    images :=
      [{ exPending with id := "i1", fileId := "d1", name := "a.jpg" },
       { exPending with id := "i2", fileId := "d2", name := "b.jpg" },
       { exPending with id := "i3", fileId := "d3", name := "c.jpg" }] }

/-- The drive-side listing matching `exDb3` exactly. -/
def exDrive3 : List DriveFile :=
  [⟨"d1", "a.jpg", "image/jpeg", false⟩,
   ⟨"d2", "b.jpg", "image/jpeg", false⟩,
   ⟨"d3", "c.jpg", "image/jpeg", false⟩]

/-- A row the image worker currently holds (`status = processing`). -/
def exProcessingRow : ImageRow :=
  { exPending with id := "i1", fileId := "d1", status := .processing }

/-- A folder whose only image is mid-processing. -/
def exDbProcessing : Db :=
  { folders := [{ id := "f1", folderId := "g1", name := none,
                  status := .processing, totalImages := 1,
                  processedImages := 0 }],
    images := [exProcessingRow] }

/-- One completed row whose name matches the query `IMG_001.jpg` only
through the `_` wildcard of SQL `LIKE`. -/
def exDbWildcard : Db :=
  { folders := [{ id := "f1", folderId := "g1", name := none,
                  status := .completed, totalImages := 1,
                  processedImages := 1 }],
    images :=
      [{ exCompleted with
          id := "w", fileId := "dw", name := "IMGx001.jpg" }] }

/-- Two completed, searchable rows named `im1.png` and `im2.png`. -/
def exDbSearch : Db :=
  { folders := [{ id := "f1", folderId := "g1", name := none,
                  status := .completed, totalImages := 2,
                  processedImages := 2 }],
    images :=
      [{ exCompleted with id := "a", fileId := "da", name := "im1.png" },
       { exCompleted with id := "b", fileId := "dcc", name := "im2.png" }] }

/-! # Theorems -/

/-! ## Helper lemmas on the row-level writes -/

theorem mem_updateFolder {db : Db} {folderId : String}
    {g : FolderRow → FolderRow} {f : FolderRow}
    (h : f ∈ (updateFolder db folderId g).folders) :
    ∃ r ∈ db.folders, f = if r.id = folderId then g r else r := by
  simp only [updateFolder, List.mem_map] at h
  obtain ⟨r, hr, hf⟩ := h
  exact ⟨r, hr, hf.symm⟩

theorem updateFolder_images (db : Db) (folderId : String)
    (g : FolderRow → FolderRow) :
    (updateFolder db folderId g).images = db.images := rfl

/-- C1 (corrected), counterexample: a folder with zero image rows
(reachable once a sync has removed every image) is marked `completed` by
the folder worker, because the `processedImages === totalImages` check has
no `totalImages > 0` guard; the claimed invariant fails after the run. -/
theorem folderWorker_zero_images_breaks_completed_invariant :
    ¬ folderStatusInvariant
      (folderWorkerRun
        { folders := [{ id := "f1", folderId := "g1", name := none,
                        status := .pending, totalImages := 0,
                        processedImages := 0 }],
          images := [] } [] "f1").1 := by
  unfold folderStatusInvariant
  decide

/-- C1 (amended): after `updateFolderProgress` or a folder-worker run, the
folder's status is `completed` exactly when the completed-row count equals
the total row count — with no `totalImages > 0` requirement, so a folder
with zero rows is completed — and the failure path of `processImage`
marks the folder `completed` with `processedImages` taken from the
in-memory map as soon as the in-memory progress counter, which also
counts failed images, reaches the in-memory total. -/
theorem folder_completed_iff_row_counts :
    (∀ (db : Db) (prog : ProgressMap) (folderId : String) (f : FolderRow),
        f ∈ (updateFolderProgress db prog folderId).1.folders →
        f.id = folderId →
        (f.status = Status.completed ↔
          countCompleted db folderId = countImages db folderId)) ∧
    (∀ (db : Db) (prog : ProgressMap) (folderId : String) (f : FolderRow),
        f ∈ (folderWorkerRun db prog folderId).1.folders →
        f.id = folderId →
        (f.status = Status.completed ↔
          countCompleted db folderId = countImages db folderId)) ∧
    (∀ (db : Db) (prog : ProgressMap) (folderId imageId msg : String)
        (cur : Progress),
        progGet prog folderId = some cur →
        cur.totalImages ≤ cur.processedImages + 1 →
        ∀ f ∈ (processImageFailurePath db prog folderId imageId
                  msg).1.folders,
        f.id = folderId →
        f.status = Status.completed ∧
          f.processedImages = cur.totalImages) := by
  refine ⟨?_, ?_, ?_⟩
  · intro db prog folderId f hf hid
    simp only [updateFolderProgress] at hf
    obtain ⟨r, _, hfr⟩ := mem_updateFolder hf
    by_cases hr : r.id = folderId
    · subst hfr
      simp only [hr, if_pos rfl]
      by_cases hc : countCompleted db folderId = countImages db folderId
      · simp [hc]
      · simp [hc]
    · rw [if_neg hr] at hfr
      subst hfr
      exact absurd hid hr
  · intro db prog folderId f hf hid
    simp only [folderWorkerRun] at hf
    by_cases hc : countCompleted db folderId = countImages db folderId
    · have hc' :
          countCompleted
              (updateFolder db folderId fun f =>
                { f with status := Status.processing }) folderId =
            countImages
              (updateFolder db folderId fun f =>
                { f with status := Status.processing }) folderId := hc
      rw [if_pos hc'] at hf
      obtain ⟨r, _, hfr⟩ := mem_updateFolder hf
      by_cases hr : r.id = folderId
      · subst hfr
        simp [hr, hc]
      · rw [if_neg hr] at hfr
        subst hfr
        exact absurd hid hr
    · have hc' :
          ¬ (countCompleted
              (updateFolder db folderId fun f =>
                { f with status := Status.processing }) folderId =
            countImages
              (updateFolder db folderId fun f =>
                { f with status := Status.processing }) folderId) := hc
      rw [if_neg hc'] at hf
      obtain ⟨r, _, hfr⟩ := mem_updateFolder hf
      by_cases hr : r.id = folderId
      · subst hfr
        simp [hr, hc]
      · rw [if_neg hr] at hfr
        subst hfr
        exact absurd hid hr
  · intro db prog folderId imageId msg cur hcur hle f hf hid
    simp only [processImageFailurePath, hcur] at hf
    rw [if_pos (by simpa using hle)] at hf
    have hfolders :
        (setImageFailed
            (updateFolder db folderId fun f =>
              { f with status := Status.completed,
                       processedImages := cur.totalImages })
            imageId msg).folders =
          (updateFolder db folderId fun f =>
            { f with status := Status.completed,
                     processedImages := cur.totalImages }).folders := rfl
    rw [hfolders] at hf
    obtain ⟨r, _, hfr⟩ := mem_updateFolder hf
    by_cases hr : r.id = folderId
    · subst hfr
      simp [hr]
    · rw [if_neg hr] at hfr
      subst hfr
      exact absurd hid hr

/-- Witness for `folder_completed_iff_row_counts` at the concrete fixture
database (one completed image out of two, so the folder stays
non-completed). -/
theorem folder_completed_iff_row_counts_witness :
    (({ id := "f1", folderId := "g1", name := none,
        status := Status.processing, totalImages := 2,
        processedImages := 1 } : FolderRow) ∈
        (updateFolderProgress exDb [] "f1").1.folders) ∧
    (({ id := "f1", folderId := "g1", name := none,
        status := Status.processing, totalImages := 2,
        processedImages := 1 } : FolderRow).status = Status.completed ↔
      countCompleted exDb "f1" = countImages exDb "f1") := by
  constructor
  · decide
  · exact folder_completed_iff_row_counts.1 exDb [] "f1"
      { id := "f1", folderId := "g1", name := none,
        status := Status.processing, totalImages := 2,
        processedImages := 1 }
      (by decide) (by decide)

/-! ## Image-row invariant lemmas (claim C2) -/

/-- A row that is not completed satisfying the invariant has at least one
null payload column. -/
theorem not_all_payload_of_invariant {r : ImageRow}
    (hinv : imageInvariant r) (hst : r.status ≠ Status.completed) :
    ¬ (r.caption ≠ none ∧ r.tags ≠ none ∧ r.captionVec ≠ none) :=
  fun h => hst (hinv.mpr h)

theorem setImageStatus_processing_inv (db : Db) (imageId : String)
    (hinv : ∀ r ∈ db.images, imageInvariant r)
    (hg : ∀ r ∈ db.images, r.id = imageId → r.status ≠ Status.completed) :
    (∀ r ∈ (setImageStatus db imageId .processing).images,
        imageInvariant r) ∧
    (∀ r ∈ (setImageStatus db imageId .processing).images,
        r.id = imageId → r.status ≠ Status.completed) := by
  constructor <;> intro r' hr'
  all_goals
    simp only [setImageStatus, List.mem_map] at hr'
    obtain ⟨r, hr, hmap⟩ := hr'
  · by_cases hid : r.id = imageId
    · rw [if_pos hid] at hmap
      subst hmap
      have hne := not_all_payload_of_invariant (hinv r hr) (hg r hr hid)
      constructor
      · intro h; exact absurd h (by simp)
      · intro h; exact absurd h hne
    · rw [if_neg hid] at hmap
      subst hmap
      exact hinv r hr
  · by_cases hid : r.id = imageId
    · rw [if_pos hid] at hmap
      subst hmap
      intro _ h
      exact absurd h (by simp)
    · rw [if_neg hid] at hmap
      subst hmap
      exact hg r hr

theorem setImageFailed_inv (db : Db) (imageId msg : String)
    (hinv : ∀ r ∈ db.images, imageInvariant r)
    (hg : ∀ r ∈ db.images, r.id = imageId → r.status ≠ Status.completed) :
    ∀ r ∈ (setImageFailed db imageId msg).images, imageInvariant r := by
  intro r' hr'
  simp only [setImageFailed, List.mem_map] at hr'
  obtain ⟨r, hr, hmap⟩ := hr'
  by_cases hid : r.id = imageId
  · rw [if_pos hid] at hmap
    subst hmap
    have hne := not_all_payload_of_invariant (hinv r hr) (hg r hr hid)
    constructor
    · intro h; exact absurd h (by simp)
    · intro h; exact absurd h hne
  · rw [if_neg hid] at hmap
    subst hmap
    exact hinv r hr

theorem setImageCompleted_inv (db : Db) (imageId c t v : String)
    (hinv : ∀ r ∈ db.images, imageInvariant r) :
    ∀ r ∈ (setImageCompleted db imageId c t v).images, imageInvariant r := by
  intro r' hr'
  simp only [setImageCompleted, List.mem_map] at hr'
  obtain ⟨r, hr, hmap⟩ := hr'
  by_cases hid : r.id = imageId
  · rw [if_pos hid] at hmap
    subst hmap
    constructor
    · intro _; exact ⟨by simp, by simp, by simp⟩
    · intro _; rfl
  · rw [if_neg hid] at hmap
    subst hmap
    exact hinv r hr

theorem processImageFailurePath_inv (db : Db) (prog : ProgressMap)
    (folderId imageId msg : String)
    (hinv : ∀ r ∈ db.images, imageInvariant r)
    (hg : ∀ r ∈ db.images, r.id = imageId → r.status ≠ Status.completed) :
    ∀ r ∈ (processImageFailurePath db prog folderId imageId
              msg).1.images, imageInvariant r := by
  intro r' hr'
  unfold processImageFailurePath at hr'
  split at hr'
  · exact setImageFailed_inv db imageId msg hinv hg r' hr'
  · dsimp only at hr'
    split at hr'
    · exact setImageFailed_inv _ imageId msg hinv hg r' hr'
    · exact setImageFailed_inv db imageId msg hinv hg r' hr'

/-- `processImage` preserves the image invariant for every row, given it
starts on a row that is not yet completed (which every call site arranges:
the folder worker reads pending rows, and both retry flavors reset or
select non-completed rows before queueing). -/
theorem processImage_preserves_imageInvariant (db : Db)
    (prog : ProgressMap) (m : BatchMember) (o : CaptionOutcome)
    (hinv : ∀ r ∈ db.images, imageInvariant r)
    (hg : ∀ r ∈ db.images, r.id = m.imageId →
      r.status ≠ Status.completed) :
    ∀ r ∈ (processImage db prog m o).1.images, imageInvariant r := by
  have h1 := setImageStatus_processing_inv db m.imageId hinv hg
  intro r' hr'
  unfold processImage at hr'
  dsimp only at hr'
  split at hr'
  case _ mt _ _ =>
    by_cases hsup : supportedMimeTypes.contains mt = true
    · rw [if_pos hsup] at hr'
      unfold processImageSupported at hr'
      split at hr'
      · exact setImageCompleted_inv _ m.imageId _ _ _ h1.1 r' hr'
      · exact processImageFailurePath_inv _ prog m.folderId m.imageId _
          h1.1 h1.2 r' hr'
    · rw [if_neg hsup] at hr'
      exact setImageFailed_inv _ m.imageId _ h1.1 h1.2 r' hr'
  case _ =>
    exact processImageFailurePath_inv _ prog m.folderId m.imageId _
      h1.1 h1.2 r' hr'

/-- C2 (confirmed): the completed write of `processImage` sets the status
and all three payload columns (`caption`, `tags`, `captionVec`) in the one
atomic statement `setImageCompleted`; the retry reset nulls `caption`,
`tags`, `captionVec` and `error` while setting `pending` in one atomic
statement; and the invariant `status = completed ⇔ caption ≠ null ∧ tags ≠
null ∧ captionVec ≠ null` is preserved by `processImage` whenever its
target row is not already completed (which every call site arranges). -/
theorem image_completed_iff_payload :
    (∀ (db : Db) (imageId c t v : String) (r : ImageRow),
        r ∈ (setImageCompleted db imageId c t v).images → r.id = imageId →
        r.status = Status.completed ∧ r.caption = some c ∧
          r.tags = some t ∧ r.captionVec = some v) ∧
    (∀ (db : Db) (imageId : String) (r : ImageRow),
        r ∈ (resetImageToPending db imageId).images → r.id = imageId →
        r.status = Status.pending ∧ r.caption = none ∧ r.tags = none ∧
          r.captionVec = none ∧ r.error = none) ∧
    (∀ (db : Db) (prog : ProgressMap) (m : BatchMember)
        (o : CaptionOutcome),
        (∀ r ∈ db.images, imageInvariant r) →
        (∀ r ∈ db.images, r.id = m.imageId →
          r.status ≠ Status.completed) →
        ∀ r ∈ (processImage db prog m o).1.images, imageInvariant r) := by
  refine ⟨?_, ?_, processImage_preserves_imageInvariant⟩
  · intro db imageId c t v r hr hid
    simp only [setImageCompleted, List.mem_map] at hr
    obtain ⟨r0, hr0, hmap⟩ := hr
    by_cases h0 : r0.id = imageId
    · rw [if_pos h0] at hmap
      subst hmap
      exact ⟨rfl, rfl, rfl, rfl⟩
    · rw [if_neg h0] at hmap
      subst hmap
      exact absurd hid h0
  · intro db imageId r hr hid
    simp only [resetImageToPending, List.mem_map] at hr
    obtain ⟨r0, hr0, hmap⟩ := hr
    by_cases h0 : r0.id = imageId
    · rw [if_pos h0] at hmap
      subst hmap
      exact ⟨rfl, rfl, rfl, rfl, rfl⟩
    · rw [if_neg h0] at hmap
      subst hmap
      exact absurd hid h0

/-- Witness for `image_completed_iff_payload` at the concrete fixture:
the completed write on `exDb`, the reset of the completed row, and a
`processImage` run on the pending row preserving the invariant. -/
theorem image_completed_iff_payload_witness :
    (exRecaptioned.status = Status.completed ∧
      exRecaptioned.caption = some "nc" ∧
      exRecaptioned.tags = some "nt" ∧
      exRecaptioned.captionVec = some "nv") ∧
    (∀ r ∈ (processImage exDb []
        { imageId := "i2", fileId := "d2", etag := "e", folderId := "f1",
          mimeType := some "image/jpeg", name := some "b.jpg" }
        (.err "boom")).1.images,
      imageInvariant r) := by
  constructor
  · exact image_completed_iff_payload.1 exDb "i2" "nc" "nt" "nv"
      exRecaptioned (by decide) (by decide)
  · exact image_completed_iff_payload.2.2 exDb []
      { imageId := "i2", fileId := "d2", etag := "e", folderId := "f1",
        mimeType := some "image/jpeg", name := some "b.jpg" }
      (.err "boom")
      (by intro r hr; fin_cases hr <;>
        simp [imageInvariant, exCompleted, exPending])
      (by intro r hr; fin_cases hr <;> simp [exCompleted, exPending])

/-! ## Search degradation (claim C3) -/

/-- C3 (corrected), counterexample: with the vector backend unavailable
(`ensurePgvectorExtension` throws), the semantic query `"bicycle"` is
answered with the 500 `Internal server error` — the request fails instead
of transparently falling back to the lexical path with
`searchType="filename"`. -/
theorem search_semantic_unavailable_fails :
    searchPOST
      { pgvectorAvailable := false, queryVec := "qv", dist := fun _ _ => 0 }
      exDb "f1" "bicycle" none = SearchResponse.serverError := by
  decide

/-- C3 (amended): when the vector backend is unavailable every semantic
query fails with the 500 server error (no fallback); the lexical branch
never consults the backend, so lexical queries are unaffected by its
availability and are always annotated `searchType="filename"`. -/
theorem search_degradation_behavior :
    (∀ (env : SearchEnv) (db : Db) (folderId query : String)
        (topK : Option Int),
        (trimL query.toList).isEmpty = false →
        isFilenameSearch (String.mk (trimL query.toList)) = false →
        env.pgvectorAvailable = false →
        searchPOST env db folderId query topK =
          SearchResponse.serverError) ∧
    (∀ (env env' : SearchEnv) (db : Db) (folderId query : String)
        (topK : Option Int),
        isFilenameSearch (String.mk (trimL query.toList)) = true →
        searchPOST env db folderId query topK =
          searchPOST env' db folderId query topK) ∧
    (∀ (env : SearchEnv) (db : Db) (folderId query : String)
        (topK : Option Int),
        (trimL query.toList).isEmpty = false →
        isFilenameSearch (String.mk (trimL query.toList)) = true →
        searchPOST env db folderId query topK =
          SearchResponse.ok
            (searchByFilename db folderId (String.mk (trimL query.toList))
              (computeMaxResults topK)) "filename") := by
  refine ⟨?_, ?_, ?_⟩
  · intro env db folderId query topK hne hsem hunav
    simp only [List.isEmpty_eq_false, String.toList] at hne hsem
    simp [searchPOST, hne, hsem, hunav]
  · intro env env' db folderId query topK hlex
    simp only [String.toList] at hlex
    by_cases hne : (trimL query.data).isEmpty = true
    · simp only [List.isEmpty_eq_true] at hne
      simp [searchPOST, hne]
    · simp only [Bool.not_eq_true, List.isEmpty_eq_false] at hne
      simp [searchPOST, hne, hlex]
  · intro env db folderId query topK hne hlex
    simp only [List.isEmpty_eq_false, String.toList] at hne hlex
    simp [searchPOST, hne, hlex]

/-- Witness for `search_degradation_behavior`: the lexical query `"im"`
on the fixture database gives the same answer whether or not the backend
is available. -/
theorem search_degradation_behavior_witness :
    searchPOST
        { pgvectorAvailable := false, queryVec := "qv",
          dist := fun _ _ => 0 } exDb "f1" "im" none =
      searchPOST
        { pgvectorAvailable := true, queryVec := "qv",
          dist := fun _ _ => 0 } exDb "f1" "im" none :=
  search_degradation_behavior.2.1
    { pgvectorAvailable := false, queryVec := "qv", dist := fun _ _ => 0 }
    { pgvectorAvailable := true, queryVec := "qv", dist := fun _ _ => 0 }
    exDb "f1" "im" none (by decide)

/-! ## MIME-type admission (claim C4) -/

/-- C4 (corrected), counterexample: `validateAndListImages` (used by the
current ingest route) lists with `mimeType contains 'image/'`, so an
`image/heic` file passes the listing filter and ingest inserts a row with
an unsupported MIME type. -/
theorem ingest_inserts_unsupported_mime :
    ((ingestRoutePOST { folders := [], images := [] }
        (.ok (some "FA") [⟨"h1", "H1.heic", "image/heic", false⟩])
        "https://drive.google.com/drive/folders/FA" none).2.images.map
          (fun r => r.mimeType)) = ["image/heic"] ∧
      supportedMimeTypes.contains "image/heic" = false := by
  decide

/-- C4 (amended): the recursive listing admits only the six supported MIME
types, but `validateAndListImages` admits every non-trashed file whose
MIME type starts with `image/` (so e.g. `image/heic` rows can be
inserted); the worker rejects an unsupported MIME type at processing time
by marking the row failed without consuming the captioning outcome. -/
theorem mime_admission_behavior :
    (∀ (remote : List DriveFile) (f : DriveFile),
        f ∈ listImagesRecursively remote →
        f.mimeType ∈ supportedMimeTypes) ∧
    (∀ (remote : List DriveFile) (f : DriveFile),
        f ∈ validateAndListImages remote ↔
          (f ∈ remote ∧ f.trashed = false ∧
            leadsWith "image/".toList f.mimeType.toList = true)) ∧
    (∀ (db : Db) (prog : ProgressMap) (m : BatchMember) (mt nm : String)
        (o o' : CaptionOutcome),
        m.mimeType = some mt → m.name = some nm →
        supportedMimeTypes.contains mt = false →
        processImage db prog m o = processImage db prog m o' ∧
          (∀ r ∈ (processImage db prog m o).1.images,
            r.id = m.imageId → r.status = Status.failed)) := by
  refine ⟨?_, ?_, ?_⟩
  · intro remote f hf
    simp only [listImagesRecursively, List.mem_filter, Bool.and_eq_true,
      Bool.not_eq_true] at hf
    simpa using hf.2.2
  · intro remote f
    simp [validateAndListImages, List.mem_filter]
  · intro db prog m mt nm o o' hm hn hsup
    have hres : resolveMeta (setImageStatus db m.imageId .processing) m =
        (some mt, some nm) := by
      simp [resolveMeta, hm, hn]
    have hsup' : ¬ mt ∈ supportedMimeTypes := by simpa using hsup
    constructor
    · simp [processImage, hres, hsup']
    · intro r hr hid
      simp only [processImage, hres, hsup, Bool.false_eq_true,
        if_false] at hr
      simp only [setImageFailed, setImageStatus, List.mem_map] at hr
      obtain ⟨r0, ⟨r1, _, hmap1⟩, hmap⟩ := hr
      by_cases h1 : r1.id = m.imageId
      · rw [if_pos h1] at hmap1
        subst hmap1
        rw [if_pos h1] at hmap
        subst hmap
        rfl
      · rw [if_neg h1] at hmap1
        subst hmap1
        rw [if_neg h1] at hmap
        subst hmap
        exact absurd hid h1

/-- Witness for `mime_admission_behavior`: a fixture `image/heic` member
is rejected by the worker identically under two different outcomes. -/
theorem mime_admission_behavior_witness :
    processImage exDb []
        { imageId := "i2", fileId := "d2", etag := "e", folderId := "f1",
          mimeType := some "image/heic", name := some "b.heic" }
        (.ok "c" ["t"] "v") =
      processImage exDb []
        { imageId := "i2", fileId := "d2", etag := "e", folderId := "f1",
          mimeType := some "image/heic", name := some "b.heic" }
        (.err "never called") :=
  (mime_admission_behavior.2.2 exDb []
    { imageId := "i2", fileId := "d2", etag := "e", folderId := "f1",
      mimeType := some "image/heic", name := some "b.heic" }
    "image/heic" "b.heic" (.ok "c" ["t"] "v") (.err "never called")
    rfl rfl (by decide)).1

/-! ## Folder-URL parsing (claim C5) -/

/-- C5 (corrected), counterexample: the ingest route's regex-only parsing
accepts a foreign host (`evil.example.com`) that the spec grammar
rejects, and rejects the `open?id=` form that the spec grammar accepts. -/
theorem url_parsing_differs_from_spec :
    ingestExtractFolderId "https://evil.example.com/folders/abc123" =
        some "abc123" ∧
      specParseFolderUrl "https://evil.example.com/folders/abc123" =
        none ∧
      ingestExtractFolderId "https://drive.google.com/open?id=abc123" =
        none ∧
      specParseFolderUrl "https://drive.google.com/open?id=abc123" =
        some "abc123" := by
  decide

/-- C5 (amended): the ingest endpoint extracts the id by matching
`/folders/{ID}` anywhere in the raw string — accepting both canonical
`/drive/folders/` forms but also any host and any path containing
`/folders/`, and rejecting the `open?id=` form; the `drive.ts` pair
`isValidDriveUrl`/`extractFolderId` does restrict the host to
`drive.google.com` (and handles `open?id=`), but accepts any path
containing `/folders/`. -/
theorem url_parsing_behavior :
    (ingestExtractFolderId
        "https://drive.google.com/drive/folders/abc123" = some "abc123") ∧
    (ingestExtractFolderId
        "https://drive.google.com/drive/u/0/folders/abc123" =
      some "abc123") ∧
    (ingestExtractFolderId "https://anyhost.example/x/folders/zz-9_Q" =
      some "zz-9_Q") ∧
    (extractFolderId "https://drive.google.com/open?id=abc123" =
      some "abc123") ∧
    (isValidDriveUrl "https://evil.example.com/folders/abc123" = false) ∧
    (isValidDriveUrl "https://drive.google.com/weird/folders/abc123" =
      true) ∧
    (extractFolderId "https://drive.google.com/weird/folders/abc123" =
      some "abc123") ∧
    (∀ (url : String) (u : ParsedUrl), parseUrl url = some u →
      isValidDriveUrl url = true → u.hostname = "drive.google.com") := by
  refine ⟨by decide, by decide, by decide, by decide, by decide,
    by decide, by decide, ?_⟩
  intro url u hu hvalid
  simp only [isValidDriveUrl, hu, Bool.and_eq_true, decide_eq_true_eq]
    at hvalid
  exact hvalid.1

/-- Witness for `url_parsing_behavior` at a concrete parsed URL. -/
theorem url_parsing_behavior_witness :
    ({ hostname := "drive.google.com", pathname := "/drive/folders/a",
       queryParams := [] } : ParsedUrl).hostname = "drive.google.com" :=
  url_parsing_behavior.2.2.2.2.2.2.2
    "https://drive.google.com/drive/folders/a"
    { hostname := "drive.google.com", pathname := "/drive/folders/a",
      queryParams := [] }
    (by decide) (by decide)

/-! ## Per-folder cap (claim C6) -/

/-- C6 (corrected), counterexample: a folder already holding three rows
under a cap of two syncs successfully (no `FolderCapExceeded`) when the
drive listing is unchanged, because the cap is only checked when there are
new images — yet the resulting total (3) exceeds the cap (2). -/
theorem sync_cap_unchecked_without_new_images :
    (syncPOST exDb3 "f1" (.ok none exDrive3) (some 2)).1 =
        SyncResponse.ok 0 0 Status.pending ∧
      countImages (syncPOST exDb3 "f1" (.ok none exDrive3) (some 2)).2
          "f1" = 3 ∧
      2 < 3 := by
  refine ⟨by decide, by decide, by decide⟩

/-- C6 (amended): the fresh-folder OAuth ingest fails with
`FolderCapExceeded` before creating any row whenever the supported-image
count exceeds the cap; sync enforces the cap (aborting with no insertion
or deletion) only when the diff contains at least one new image — with an
empty `New` set the cap is not consulted. -/
theorem folder_cap_enforcement :
    (∀ (db : Db) (files : List DriveFile) (folderName : Option String)
        (url : String) (limit : Nat) (did : String),
        ingestExtractFolderId url = some did →
        findFolderByDriveId db did = none →
        limit < ((listImagesRecursively files).filter fun f =>
          supportedMimeTypes.contains f.mimeType).length →
        ingestOauthPOST db (.ok folderName files) url (some limit) =
          (.capExceeded, db)) ∧
    (∀ (db : Db) (folderRowId : String) (folder : FolderRow)
        (folderName : Option String) (files : List DriveFile)
        (limit : Nat),
        db.folders.find? (fun f => f.id = folderRowId) = some folder →
        (files.filter fun f =>
          !((db.images.filter fun r => r.folderId = folderRowId).map
              (fun r => r.fileId)).contains f.id).length ≠ 0 →
        limit <
          (db.images.filter fun r => r.folderId = folderRowId).length -
              (((db.images.filter fun r => r.folderId = folderRowId).map
                  (fun r => r.fileId)).filter fun fid =>
                !(files.map (fun f => f.id)).contains fid).length +
            (files.filter fun f =>
              !((db.images.filter fun r => r.folderId = folderRowId).map
                  (fun r => r.fileId)).contains f.id).length →
        syncPOST db folderRowId (.ok folderName files) (some limit) =
          (.capExceeded, db)) := by
  constructor
  · intro db files folderName url limit did hurl hfind hlt
    unfold ingestOauthPOST
    rw [hurl]
    dsimp only
    rw [hfind]
    dsimp only
    simp only [decide_eq_true_eq]
    rw [if_pos hlt]
  · intro db folderRowId folder folderName files limit hfind hnew hlt
    unfold syncPOST
    rw [hfind]
    dsimp only
    rw [if_pos hnew]
    simp only [decide_eq_true_eq]
    rw [if_pos hlt]

/-- Witness for `folder_cap_enforcement`: three supported files against a
cap of two make the fresh OAuth ingest fail with no state change. -/
theorem folder_cap_enforcement_witness :
    ingestOauthPOST { folders := [], images := [] }
        (.ok (some "FA") exDrive3)
        "https://drive.google.com/drive/folders/FA" (some 2) =
      (.capExceeded, { folders := [], images := [] }) :=
  folder_cap_enforcement.1 { folders := [], images := [] } exDrive3
    (some "FA") "https://drive.google.com/drive/folders/FA" 2 "FA"
    (by decide) (by decide) (by decide)

/-! ## Batch isolation (claim C7) -/

/-- `l'` arises from `l` by an id-local rewrite: a pointwise map that
leaves every row with a different id untouched and never changes ids. -/
def IdLocalMap (iid : String) (l l' : List ImageRow) : Prop :=
  ∃ g : ImageRow → ImageRow,
    l' = l.map g ∧ (∀ r, r.id ≠ iid → g r = r) ∧ (∀ r, (g r).id = r.id)

theorem idLocalMap_id (iid : String) (l : List ImageRow) :
    IdLocalMap iid l l :=
  ⟨fun r => r, by simp, fun _ _ => rfl, fun _ => rfl⟩

theorem idLocalMap_trans {iid : String} {l l' l'' : List ImageRow}
    (h1 : IdLocalMap iid l l') (h2 : IdLocalMap iid l' l'') :
    IdLocalMap iid l l'' := by
  obtain ⟨g1, he1, hoff1, hid1⟩ := h1
  obtain ⟨g2, he2, hoff2, hid2⟩ := h2
  refine ⟨fun r => g2 (g1 r), ?_, ?_, ?_⟩
  · rw [he2, he1, List.map_map]; rfl
  · intro r hr
    show g2 (g1 r) = r
    rw [hoff1 r hr, hoff2 r hr]
  · intro r
    show (g2 (g1 r)).id = r.id
    rw [hid2 (g1 r), hid1 r]

theorem idLocalMap_mem_rev {iid : String} {l l' : List ImageRow}
    (h : IdLocalMap iid l l') {r' : ImageRow} (hr' : r' ∈ l')
    (hne : r'.id ≠ iid) : r' ∈ l := by
  obtain ⟨g, he, hoff, hid⟩ := h
  subst he
  obtain ⟨r, hr, hgr⟩ := List.mem_map.mp hr'
  have : r.id ≠ iid := by rw [← hgr] at hne; rw [← hid r]; exact hne
  rw [← hgr, hoff r this]
  exact hr

theorem setImageStatus_idLocalMap (db : Db) (iid : String) (st : Status) :
    IdLocalMap iid db.images (setImageStatus db iid st).images := by
  refine ⟨_, rfl, ?_, ?_⟩
  · intro r hr; simp [hr]
  · intro r; by_cases hr : r.id = iid <;> simp [hr]

theorem setImageFailed_idLocalMap (db : Db) (iid msg : String) :
    IdLocalMap iid db.images (setImageFailed db iid msg).images := by
  refine ⟨_, rfl, ?_, ?_⟩
  · intro r hr; simp [hr]
  · intro r; by_cases hr : r.id = iid <;> simp [hr]

theorem setImageCompleted_idLocalMap (db : Db) (iid c t v : String) :
    IdLocalMap iid db.images (setImageCompleted db iid c t v).images := by
  refine ⟨_, rfl, ?_, ?_⟩
  · intro r hr; simp [hr]
  · intro r; by_cases hr : r.id = iid <;> simp [hr]

/-- `processImage` only rewrites rows with its member's id. -/
theorem processImage_idLocalMap (db : Db) (prog : ProgressMap)
    (m : BatchMember) (o : CaptionOutcome) :
    IdLocalMap m.imageId db.images (processImage db prog m o).1.images := by
  have h1 := setImageStatus_idLocalMap db m.imageId .processing
  unfold processImage
  dsimp only
  split
  case _ mt _ _ =>
    by_cases hsup : supportedMimeTypes.contains mt = true
    · rw [if_pos hsup]
      unfold processImageSupported
      split
      · exact idLocalMap_trans h1 (setImageCompleted_idLocalMap _ _ _ _ _)
      · unfold processImageFailurePath
        split
        · exact idLocalMap_trans h1 (setImageFailed_idLocalMap _ _ _)
        · dsimp only
          split
          · exact idLocalMap_trans h1 (setImageFailed_idLocalMap _ _ _)
          · exact idLocalMap_trans h1 (setImageFailed_idLocalMap _ _ _)
    · rw [if_neg hsup]
      exact idLocalMap_trans h1 (setImageFailed_idLocalMap _ _ _)
  case _ =>
    unfold processImageFailurePath
    split
    · exact idLocalMap_trans h1 (setImageFailed_idLocalMap _ _ _)
    · dsimp only
      split
      · exact idLocalMap_trans h1 (setImageFailed_idLocalMap _ _ _)
      · exact idLocalMap_trans h1 (setImageFailed_idLocalMap _ _ _)

/-- After a supported member with a successful outcome, every row with the
member's id is completed. -/
theorem processImage_ok_post (db : Db) (prog : ProgressMap)
    (m : BatchMember) (mt nm c v : String) (ts : List String)
    (hm : m.mimeType = some mt) (hn : m.name = some nm)
    (hsup : supportedMimeTypes.contains mt = true) :
    ∀ r ∈ (processImage db prog m (.ok c ts v)).1.images,
      r.id = m.imageId → r.status = Status.completed := by
  intro r hr hid
  have hres : resolveMeta (setImageStatus db m.imageId .processing) m =
      (some mt, some nm) := by
    simp [resolveMeta, hm, hn]
  simp only [processImage, hres, hsup, if_true] at hr
  simp only [processImageSupported] at hr
  have himg :
      ((updateFolderProgress
        (setImageCompleted (setImageStatus db m.imageId .processing)
          m.imageId c (joinComma ts) v) prog m.folderId).1).images =
      (setImageCompleted (setImageStatus db m.imageId .processing)
        m.imageId c (joinComma ts) v).images := rfl
  rw [himg] at hr
  simp only [setImageCompleted, List.mem_map] at hr
  obtain ⟨r0, _, hmap⟩ := hr
  by_cases h0 : r0.id = m.imageId
  · rw [if_pos h0] at hmap
    subst hmap
    rfl
  · rw [if_neg h0] at hmap
    subst hmap
    exact absurd hid h0

theorem runBatch_cons (db : Db) (prog : ProgressMap) (m : BatchMember)
    (o : CaptionOutcome) (tl : List (BatchMember × CaptionOutcome)) :
    runBatchMembers db prog ((m, o) :: tl) =
      ((runBatchMembers (processImage db prog m o).1
          (processImage db prog m o).2.1 tl).1,
       (runBatchMembers (processImage db prog m o).1
          (processImage db prog m o).2.1 tl).2.1,
       (processImage db prog m o).2.2 ::
        (runBatchMembers (processImage db prog m o).1
          (processImage db prog m o).2.1 tl).2.2) := by
  rcases h1 : processImage db prog m o with ⟨db1, prog1, r⟩
  rcases h2 : runBatchMembers db1 prog1 tl with ⟨db2, prog2, rs⟩
  simp [runBatchMembers, h1, h2]

/-- Rows whose id belongs to no job of the batch survive the whole batch
run unchanged (reverse direction). -/
theorem runBatch_mem_rev :
    ∀ (jobs : List (BatchMember × CaptionOutcome)) (db : Db)
      (prog : ProgressMap) (r' : ImageRow),
      r' ∈ (runBatchMembers db prog jobs).1.images →
      (∀ mo ∈ jobs, (mo : BatchMember × CaptionOutcome).1.imageId ≠
        r'.id) → r' ∈ db.images
  | [], db, prog, r', hr', _ => hr'
  | (m, o) :: tl, db, prog, r', hr', hne => by
    rw [runBatch_cons] at hr'
    have htail := runBatch_mem_rev tl (processImage db prog m o).1
      (processImage db prog m o).2.1 r' hr'
      (fun mo hmo => hne mo (List.mem_cons_of_mem _ hmo))
    exact idLocalMap_mem_rev (processImage_idLocalMap db prog m o) htail
      (fun h => hne (m, o) (List.mem_cons_self _ _) (by rw [h]))

theorem imageWorkerBatch_eq (db : Db) (prog : ProgressMap)
    (jobs : List (BatchMember × CaptionOutcome)) :
    imageWorkerBatch db prog jobs =
      ((runBatchMembers db prog jobs).1,
       (runBatchMembers db prog jobs).2.1,
       { success := true,
         processed := (((runBatchMembers db prog jobs).2.2).filter
           fun r => r.success).length,
         failed := (((runBatchMembers db prog jobs).2.2).filter
           fun r => !r.success).length }) := by
  rcases h : runBatchMembers db prog jobs with ⟨a, b, c⟩
  simp [imageWorkerBatch, h]

theorem presults_split_length (l : List PResult) :
    (l.filter fun r => r.success).length +
      (l.filter fun r => !r.success).length = l.length := by
  induction l with
  | nil => rfl
  | cons hd tl ih =>
    by_cases h : hd.success = true <;>
      simp [List.filter_cons, h, ← ih] <;> omega

theorem runBatch_results_length :
    ∀ (jobs : List (BatchMember × CaptionOutcome)) (db : Db)
      (prog : ProgressMap),
      ((runBatchMembers db prog jobs).2.2).length = jobs.length
  | [], _, _ => rfl
  | (m, o) :: tl, db, prog => by
    rw [runBatch_cons]
    simp [runBatch_results_length tl]

theorem runBatch_completed_post
    (jobs : List (BatchMember × CaptionOutcome)) :
    ∀ (db : Db) (prog : ProgressMap),
      (jobs.map fun mo => mo.1.imageId).Pairwise (fun a b => a ≠ b) →
      ∀ mo ∈ jobs, ∀ (mt nm c v : String) (ts : List String),
        (mo : BatchMember × CaptionOutcome).1.mimeType = some mt →
        mo.1.name = some nm →
        supportedMimeTypes.contains mt = true →
        mo.2 = CaptionOutcome.ok c ts v →
        ∀ r ∈ (runBatchMembers db prog jobs).1.images,
          r.id = mo.1.imageId → r.status = Status.completed := by
  induction jobs with
  | nil =>
    intro db prog _ mo hmo
    exact absurd hmo (by simp)
  | cons hd tl ih =>
    intro db prog hpw mo hmo mt nm c v ts hm hn hsup ho r hr hid
    rcases hd with ⟨m, o⟩
    rw [List.map_cons] at hpw
    have hpc := List.pairwise_cons.mp hpw
    rw [runBatch_cons] at hr
    rcases List.mem_cons.mp hmo with heq | htl
    · subst heq
      simp only at hm hn ho hid
      subst ho
      have hne : ∀ mo' ∈ tl,
          (mo' : BatchMember × CaptionOutcome).1.imageId ≠ r.id := by
        intro mo' hmo'
        have hmm := hpc.1 (mo'.1.imageId) (List.mem_map_of_mem _ hmo')
        rw [hid]
        exact fun hc => hmm (by rw [hc])
      have hr0 := runBatch_mem_rev tl _ _ r hr hne
      exact processImage_ok_post db prog m mt nm c v ts hm hn hsup r hr0 hid
    · exact ih _ _ hpc.2 mo htl mt nm c v ts hm hn hsup ho r hr hid

/-- C7 (confirmed): the batch job executes every member and returns
`{success: true, processed, failed}` with `processed + failed` equal to
the member count; and — with the members' image ids pairwise distinct, as
the folder worker builds them — a member with a supported MIME type and a
successful captioning outcome always ends with its row `completed`,
whatever the other members' outcomes are. -/
theorem imageWorkerBatch_isolation :
    (∀ (db : Db) (prog : ProgressMap)
        (jobs : List (BatchMember × CaptionOutcome)),
        ((imageWorkerBatch db prog jobs).2.2).success = true ∧
        ((imageWorkerBatch db prog jobs).2.2).processed +
            ((imageWorkerBatch db prog jobs).2.2).failed =
          jobs.length ∧
        ((runBatchMembers db prog jobs).2.2).length = jobs.length) ∧
    (∀ (db : Db) (prog : ProgressMap)
        (jobs : List (BatchMember × CaptionOutcome)),
        (jobs.map fun mo => mo.1.imageId).Pairwise (fun a b => a ≠ b) →
        ∀ mo ∈ jobs, ∀ (mt nm c v : String) (ts : List String),
          (mo : BatchMember × CaptionOutcome).1.mimeType = some mt →
          mo.1.name = some nm →
          supportedMimeTypes.contains mt = true →
          mo.2 = CaptionOutcome.ok c ts v →
          ∀ r ∈ (imageWorkerBatch db prog jobs).1.images,
            r.id = mo.1.imageId → r.status = Status.completed) := by
  constructor
  · intro db prog jobs
    rw [imageWorkerBatch_eq]
    refine ⟨rfl, ?_, runBatch_results_length jobs db prog⟩
    rw [presults_split_length, runBatch_results_length]
  · intro db prog jobs hpw mo hmo mt nm c v ts hm hn hsup ho r hr hid
    rw [imageWorkerBatch_eq] at hr
    exact runBatch_completed_post jobs db prog hpw mo hmo mt nm c v ts
      hm hn hsup ho r hr hid

/-- Witness for `imageWorkerBatch_isolation`: a two-member batch on the
fixture where the second member fails; the first member's row is
completed anyway. -/
theorem imageWorkerBatch_isolation_witness :
    ∀ r ∈ (imageWorkerBatch exDb3 []
        [({ imageId := "i1", fileId := "d1", etag := "e",
            folderId := "f1", mimeType := some "image/jpeg",
            name := some "a.jpg" }, .ok "cap" ["t1"] "vec"),
         ({ imageId := "i2", fileId := "d2", etag := "e",
            folderId := "f1", mimeType := some "image/jpeg",
            name := some "b.jpg" }, .err "boom")]).1.images,
      r.id = "i1" → r.status = Status.completed :=
  imageWorkerBatch_isolation.2 exDb3 []
    [({ imageId := "i1", fileId := "d1", etag := "e", folderId := "f1",
        mimeType := some "image/jpeg", name := some "a.jpg" },
      .ok "cap" ["t1"] "vec"),
     ({ imageId := "i2", fileId := "d2", etag := "e", folderId := "f1",
        mimeType := some "image/jpeg", name := some "b.jpg" },
      .err "boom")]
    (by decide)
    ({ imageId := "i1", fileId := "d1", etag := "e", folderId := "f1",
       mimeType := some "image/jpeg", name := some "a.jpg" },
     .ok "cap" ["t1"] "vec")
    (by decide) "image/jpeg" "a.jpg" "cap" "vec" ["t1"]
    rfl rfl (by decide) rfl

/-! ## Lexical ranking (claim C8) -/

instance (q : List Char) : IsTotal ImageRow (filenameOrder q) where
  total a b := by
    unfold filenameOrder
    rcases Nat.lt_trichotomy (filenameRank q (lowerL a.name.toList))
      (filenameRank q (lowerL b.name.toList)) with h | h | h
    · exact Or.inl (Or.inl h)
    · rcases le_total a.name.toList b.name.toList with hle | hle
      · exact Or.inl (Or.inr ⟨h, hle⟩)
      · exact Or.inr (Or.inr ⟨h.symm, hle⟩)
    · exact Or.inr (Or.inl h)

instance (q : List Char) : IsTrans ImageRow (filenameOrder q) where
  trans a b c hab hbc := by
    unfold filenameOrder at *
    rcases hab with h1 | ⟨e1, le1⟩ <;> rcases hbc with h2 | ⟨e2, le2⟩
    · exact Or.inl (lt_trans h1 h2)
    · exact Or.inl (e2 ▸ h1)
    · exact Or.inl (e1 ▸ h2)
    · exact Or.inr ⟨e1.trans e2, le_trans le1 le2⟩

/-- Every row produced by the lexical SQL query comes from the table,
belongs to the folder, is completed, and satisfies the `WHERE` clause's
`LOWER(name) LIKE LOWER('%query%')` test (wildcard semantics included). -/
theorem searchByFilenameRows_mem (db : Db) (folderId q : String) (n : Nat)
    (r : ImageRow) (hr : r ∈ searchByFilenameRows db folderId q n) :
    r ∈ db.images ∧ r.folderId = folderId ∧
      r.status = Status.completed ∧
      likeMatch ('%' :: lowerL q.toList ++ ['%'])
        (lowerL r.name.toList) = true := by
  unfold searchByFilenameRows at hr
  have h1 := List.take_subset _ _ hr
  have h2 := (List.perm_insertionSort _ _).mem_iff.mp h1
  simp only [List.mem_filter, Bool.and_eq_true, decide_eq_true_eq] at h2
  exact ⟨h2.1, h2.2.1.1, h2.2.1.2, h2.2.2⟩

/-- C8 (corrected), counterexample: with `topK = 0`, JS `parseInt(topK) ||
12` falls back to the default 12, so the route returns both matching rows,
exceeding the claimed limit `min(max(topK,1),50) = 1`. -/
theorem search_topk_zero_exceeds_claimed_limit :
    (searchPOST
        { pgvectorAvailable := true, queryVec := "qv",
          dist := fun _ _ => 0 } exDbSearch "f1" "im" (some 0) =
      SearchResponse.ok
        [⟨"a", "im1.png", some "c", 800⟩, ⟨"b", "im2.png", some "c", 800⟩]
        "filename") ∧
      computeMaxResults (some 0) = 12 ∧
      min (max (0 : Int) 1) 50 = 1 := by
  refine ⟨by decide, by decide, by decide⟩

/-- C8 (amended): lexical matching is case-insensitive (only the
lowercased query matters); every returned row is a completed row of the
folder whose lowercased name satisfies `LIKE '%query%'` — the query is
interpolated into the pattern unescaped, so its `%`/`_` act as SQL
wildcards (e.g. the query `IMG_001.jpg` matches the name `IMGx001.jpg`
with score 0.8); at most `min(max(1, parseInt(topK) || 12), 50)` rows are
returned (`topK = 0`, absent or non-numeric falls back to 12); the rows
are ordered by rank bucket — exact equality, then `LIKE 'query%'`, then
`LIKE '%query%'` — with ties broken by name ascending; and the similarity
pseudo-score is 1.0 / 0.8 / 0.6 (in thousandths) for the three
buckets. -/
theorem lexical_ranking_behavior :
    (∀ (db : Db) (folderId q q' : String) (n : Nat),
        lowerL q.toList = lowerL q'.toList →
        searchByFilename db folderId q n =
          searchByFilename db folderId q' n) ∧
    (∀ (db : Db) (folderId q : String) (n : Nat) (r : ImageRow),
        r ∈ searchByFilenameRows db folderId q n →
        r ∈ db.images ∧ r.folderId = folderId ∧
          r.status = Status.completed ∧
          likeMatch ('%' :: lowerL q.toList ++ ['%'])
            (lowerL r.name.toList) = true) ∧
    (∀ (db : Db) (folderId q : String) (n : Nat),
        (searchByFilename db folderId q n).length ≤ n) ∧
    (∀ (db : Db) (folderId q : String) (n : Nat),
        (searchByFilenameRows db folderId q n).Pairwise
          (filenameOrder (lowerL q.toList))) ∧
    (∀ (db : Db) (folderId q : String) (n : Nat) (hit : SearchHit),
        hit ∈ searchByFilename db folderId q n →
        (lowerL hit.name.toList = lowerL q.toList ∧
            hit.similarity = 1000) ∨
          (lowerL hit.name.toList ≠ lowerL q.toList ∧
            likeMatch (lowerL q.toList ++ ['%'])
              (lowerL hit.name.toList) = true ∧
            hit.similarity = 800) ∨
          (likeMatch (lowerL q.toList ++ ['%'])
              (lowerL hit.name.toList) = false ∧
            likeMatch ('%' :: lowerL q.toList ++ ['%'])
              (lowerL hit.name.toList) = true ∧
            hit.similarity = 600)) ∧
    (searchByFilename exDbWildcard "f1" "IMG_001.jpg" 12 =
      [⟨"w", "IMGx001.jpg", some "c", 800⟩]) := by
  have hmem := searchByFilenameRows_mem
  refine ⟨?_, fun db folderId q n r hr => hmem db folderId q n r hr,
    ?_, ?_, ?_, by decide⟩
  · intro db folderId q q' n h
    unfold searchByFilename searchByFilenameRows filenameScore
    rw [h]
  · intro db folderId q n
    unfold searchByFilename searchByFilenameRows
    rw [List.length_map]
    exact List.length_take_le n _
  · intro db folderId q n
    unfold searchByFilenameRows
    exact (List.sorted_insertionSort _ _).sublist (List.take_sublist _ _)
  · intro db folderId q n hit hhit
    unfold searchByFilename at hhit
    obtain ⟨r, hr, hmap⟩ := List.mem_map.mp hhit
    have hsub := (hmem db folderId q n r hr).2.2.2
    subst hmap
    simp only
    unfold filenameScore
    by_cases he : lowerL r.name.toList = lowerL q.toList
    · rw [if_pos he]
      exact Or.inl ⟨he, rfl⟩
    · rw [if_neg he]
      by_cases hl : likeMatch (lowerL q.toList ++ ['%'])
          (lowerL r.name.toList) = true
      · rw [if_pos hl]
        exact Or.inr (Or.inl ⟨he, hl, rfl⟩)
      · rw [if_neg hl]
        rw [if_pos hsub]
        exact Or.inr (Or.inr
          ⟨Bool.not_eq_true _ ▸ (Bool.eq_false_iff.mpr hl), hsub, rfl⟩)

/-- Witness for `lexical_ranking_behavior`: the query is matched through
its lowercased form, so `"IM"` and `"im"` give the same results on the
fixture. -/
theorem lexical_ranking_behavior_witness :
    searchByFilename exDbSearch "f1" "IM" 12 =
      searchByFilename exDbSearch "f1" "im" 12 :=
  lexical_ranking_behavior.1 exDbSearch "f1" "IM" "im" 12 (by decide)

/-! ## Sync deletion (claim C9) -/

/-- C9 (corrected), counterexample: a row currently `processing` that is
absent upstream is deleted by sync — the `deleteMany` carries no status
guard. -/
theorem sync_deletes_processing_row :
    exProcessingRow.status = Status.processing ∧
      (syncPOST exDbProcessing "f1" (.ok none []) none).2.images = [] := by
  refine ⟨rfl, by decide⟩

/-- The post-insert, post-delete image list of a successful sync keeps a
pre-existing row of the folder exactly when its file id is still listed
upstream. -/
theorem sync_images_filter_mem (db : Db) (folderRowId : String)
    (files : List DriveFile) (r : ImageRow) (hr : r ∈ db.images)
    (hfid : r.folderId = folderRowId) :
    (r ∈ (db.images ++
        (files.filter fun f =>
          !((db.images.filter fun rr => rr.folderId = folderRowId).map
              fun rr => rr.fileId).contains f.id).map
          (newImageRow folderRowId)).filter fun rr =>
        !(rr.folderId = folderRowId &&
          (((db.images.filter fun rr => rr.folderId = folderRowId).map
              fun rr => rr.fileId).filter fun fid =>
            !(files.map fun f => f.id).contains fid).contains
            rr.fileId)) ↔
      (files.map fun f => f.id).contains r.fileId = true := by
  constructor
  · intro hmem
    have hcond := (List.mem_filter.mp hmem).2
    by_contra hnot
    have hnotmem : r.fileId ∉ files.map fun f => f.id := fun hm =>
      hnot (List.elem_iff.mpr hm)
    have hdel : (((db.images.filter fun rr =>
        rr.folderId = folderRowId).map fun rr => rr.fileId).filter
          fun fid =>
        !(files.map fun f => f.id).contains fid).contains
        r.fileId = true := by
      rw [List.elem_iff, List.mem_filter]
      refine ⟨List.mem_map_of_mem _
        (List.mem_filter.mpr ⟨hr, by simp [hfid]⟩), ?_⟩
      simp only [Bool.not_eq_true']
      exact Bool.eq_false_iff.mpr
        (fun hc => hnotmem (List.elem_iff.mp hc))
    rw [hfid, hdel] at hcond
    simp at hcond
  · intro hin
    rw [List.mem_filter]
    refine ⟨List.mem_append_left _ hr, ?_⟩
    have hdel : (((db.images.filter fun rr =>
        rr.folderId = folderRowId).map fun rr => rr.fileId).filter
          fun fid =>
        !(files.map fun f => f.id).contains fid).contains
        r.fileId = false := by
      rw [Bool.eq_false_iff]
      intro hc
      have hmem2 := (List.mem_filter.mp (List.elem_iff.mp hc)).2
      rw [hin] at hmem2
      cases hmem2
    rw [hfid, hdel]
    simp

/-- C9 (amended): a successful sync deletes exactly the rows of the folder
that are absent upstream, regardless of their status — a row of the folder
survives iff its drive file id is still listed. -/
theorem sync_deletion_behavior :
    ∀ (db : Db) (folderRowId : String) (folderName : Option String)
      (files : List DriveFile) (limit : Option Nat) (a d : Nat)
      (st : Status) (db' : Db),
      syncPOST db folderRowId (.ok folderName files) limit =
        (SyncResponse.ok a d st, db') →
      ∀ r ∈ db.images, r.folderId = folderRowId →
        (r ∈ db'.images ↔
          (files.map fun f => f.id).contains r.fileId = true) := by
  intro db folderRowId folderName files limit a d st db' hrun r hr hfid
  unfold syncPOST at hrun
  rcases hfind : db.folders.find? (fun f => f.id = folderRowId)
    with _ | folder
  · rw [hfind] at hrun
    exact absurd hrun (by simp)
  · rw [hfind] at hrun
    dsimp only at hrun
    repeat' split at hrun
    all_goals
      try (exfalso; exact SyncResponse.noConfusion (congrArg Prod.fst hrun))
    all_goals
      (have hdb' := congrArg Prod.snd hrun
       dsimp only at hdb'
       rw [← hdb', updateFolder_images]
       exact sync_images_filter_mem db folderRowId files r hr hfid)

/-- Witness for `sync_deletion_behavior`: on the three-row fixture with an
unchanged drive listing, the row `i1` survives the sync. -/
theorem sync_deletion_behavior_witness :
    ({ exPending with id := "i1", fileId := "d1", name := "a.jpg" } :
        ImageRow) ∈
      (syncPOST exDb3 "f1" (.ok none exDrive3) (some 2)).2.images :=
  (sync_deletion_behavior exDb3 "f1" none exDrive3 (some 2) 0 0
    Status.pending (syncPOST exDb3 "f1" (.ok none exDrive3) (some 2)).2
    (by decide)
    { exPending with id := "i1", fileId := "d1", name := "a.jpg" }
    (by decide) (by decide)).mpr (by decide)

/-! ## Lexical search returns only completed rows (claim C10) -/

/-- C10 (confirmed): every hit of a query answered through the lexical
(filename) branch corresponds to a row of the folder with status
`completed`; rows in `pending`, `processing` or `failed` never appear,
even on an exact name match, because the SQL `WHERE` clause demands
`status = 'completed'`. -/
theorem lexical_search_only_completed :
    ∀ (env : SearchEnv) (db : Db) (folderId query : String)
      (topK : Option Int) (hits : List SearchHit),
      searchPOST env db folderId query topK =
        SearchResponse.ok hits "filename" →
      ∀ hit ∈ hits, ∃ r, r ∈ db.images ∧ r.id = hit.id ∧
        r.name = hit.name ∧ r.folderId = folderId ∧
        r.status = Status.completed := by
  intro env db folderId query topK hits hrun hit hhit
  unfold searchPOST at hrun
  split at hrun
  · exact absurd hrun (by simp)
  · split at hrun
    · dsimp only at hrun
      split at hrun
      · injection hrun with hres _
        subst hres
        obtain ⟨r, hr, hmap⟩ := List.mem_map.mp hhit
        have hm := searchByFilenameRows_mem db folderId _ _ r hr
        exact ⟨r, hm.1, by rw [← hmap], by rw [← hmap], hm.2.1,
          hm.2.2.1⟩
      · exact absurd hrun (by simp)
    · dsimp only at hrun
      split at hrun
      · injection hrun with hres _
        subst hres
        obtain ⟨r, hr, hmap⟩ := List.mem_map.mp hhit
        have hm := searchByFilenameRows_mem db folderId _ _ r hr
        exact ⟨r, hm.1, by rw [← hmap], by rw [← hmap], hm.2.1,
          hm.2.2.1⟩
      · injection hrun with _ hty
        exact absurd hty (by decide)

/-- Witness for `lexical_search_only_completed`: the exact-match hit for
`"im1.png"` on the fixture corresponds to the completed row `a`. -/
theorem lexical_search_only_completed_witness :
    ∃ r, r ∈ exDbSearch.images ∧
      r.id = ("a" : String) ∧ r.name = ("im1.png" : String) ∧
      r.folderId = ("f1" : String) ∧ r.status = Status.completed :=
  lexical_search_only_completed
    { pgvectorAvailable := true, queryVec := "qv", dist := fun _ _ => 0 }
    exDbSearch "f1" "im1.png" none
    [⟨"a", "im1.png", some "c", 1000⟩] (by decide)
    ⟨"a", "im1.png", some "c", 1000⟩ (by decide)

end Drive
